import Mathlib

/-!
Shallow embedding of the gollum repository snapshot:
`shared` config parsing (`Config.SetYAML`, `PluginConfig`), the `Profiler`
consumer and the `Syslogd` consumer, together with proofs about the
claims of the specification.
-/

set_option autoImplicit false

namespace Gollum

/-! ## The shared configuration model (src/unnamed/part_001)

A YAML scalar as it reaches `Config.SetYAML` after unmarshalling.  The Go
code stores settings values as `interface{}`; only the distinction between
booleans (asserted for the `Enable` key), integers and strings matters here.
-/

inductive YamlValue where
  | bool (b : Bool)
  | int (n : Int)
  | str (s : String)
  deriving DecidableEq, Repr

/-- The Go type assertion `settingValue.(bool)`: succeeds exactly on booleans. -/
def YamlValue.asBool : YamlValue → Option Bool
  | .bool b => some b
  | _ => none

/-- `shared.PluginConfig`: the parsed sub-config of one plugin instance.
The Go `Settings` field is a `map[string]interface{}`; since Go map keys are
unique, an association list in insertion order is a faithful model. -/
structure PluginConfig where
  Enable : Bool
  Settings : List (String × YamlValue)
  deriving DecidableEq, Repr

/-- The inner loop of `Config.SetYAML` over one plugin's settings map,
starting from `PluginConfig{false, make(map[string]interface{})}`:
the key `"Enable"` is asserted to a bool and stored in the `Enable` field
(a failed assertion is a Go panic, modelled as `none`); every other key is
stored verbatim in the `Settings` map. -/
def parsePlugin : List (String × YamlValue) → PluginConfig → Option PluginConfig
  | [], p => some p
  | (k, v) :: rest, p =>
    if k = "Enable" then
      match v.asBool with
      | some b => parsePlugin rest { p with Enable := b }
      | none => none
    else
      parsePlugin rest { p with Settings := p.Settings ++ [(k, v)] }

/-- `shared.Config`: plugin class name to the list of configs declared for
that class.  The Go map with `append` per class is modelled as a total
function defaulting to the empty list. -/
structure Config where
  Settings : String → List PluginConfig

/-- `Config.SetYAML`: folds a sequence of plugin declarations (each a
single-entry map `class -> settings`) into the config, appending one
`PluginConfig` per declaration to `Settings[class]` in declaration order.
A failed type assertion inside a declaration is a Go panic, modelled as
`none`. -/
def Config.SetYAML (conf : Config) : List (String × List (String × YamlValue)) → Option Config
  | [] => some conf
  | (cls, settings) :: rest =>
    match parsePlugin settings ⟨false, []⟩ with
    | some plugin =>
        Config.SetYAML
          ⟨fun c => if c = cls then conf.Settings c ++ [plugin] else conf.Settings c⟩ rest
    | none => none

/-- The plugins that `Config.SetYAML` appends for class `cls`, in declaration
order: one parsed `PluginConfig` per declaration of that class. -/
def parsedPlugins (decls : List (String × List (String × YamlValue))) (cls : String) :
    List PluginConfig :=
  (decls.filter (fun d => d.1 = cls)).filterMap (fun d => parsePlugin d.2 ⟨false, []⟩)

/-! ## The Profiler consumer (src/consumer/Profiler.go) -/

/-- Modelled from the spec: typed getter `GetInt` of the shared plugin
config (the shared getters are not part of this source snapshot; section 4.2:
"Typed getters return the caller's default if a key is absent").  Returns the
declared integer when the key is declared, the caller's default otherwise. -/
def PluginConfig.GetInt (conf : PluginConfig) (key : String) (dflt : Int) : Int :=
  match conf.Settings.lookup key with
  | some (.int n) => n
  | _ => dflt

/-- Modelled from the spec: typed getter `GetString` of the shared plugin
config (the shared getters are not part of this source snapshot; section 4.2:
"Typed getters return the caller's default if a key is absent"). -/
def PluginConfig.GetString (conf : PluginConfig) (key : String) (dflt : String) : String :=
  match conf.Settings.lookup key with
  | some (.str s) => s
  | _ => dflt

/-- The `Profiler` consumer's own fields (the embedded `standardConsumer`
base is not part of this source snapshot). -/
structure Profiler where
  profileRuns : Int
  batches : Int
  length : Int
  deriving DecidableEq, Repr

/-- `Profiler.Create`: reads `Runs`, `Batches` and `Length` from the plugin
config via the typed getters, with defaults 10000, 10 and 256. -/
def Profiler.Create (conf : PluginConfig) : Profiler :=
  { profileRuns := conf.GetInt "Runs" 10000
    batches := conf.GetInt "Batches" 10
    length := conf.GetInt "Length" 256 }

/-- The rune alphabet `stringBase` from Profiler.go (the final rune is the
apostrophe, written as `Char.ofNat 39`). -/
def stringBase : List Char :=
  "abcdefghijklmnopqrstuvwxyzABCDEFGHIJKLMNOPQRSTUVWXYZ01234567890 _.!?/&%$§".toList
    ++ [Char.ofNat 39]

/-- The random string built at the start of `Profiler.profile`:
`cons.length` runes drawn from `stringBase`.  `rand.Intn` is modelled by an
arbitrary choice function reduced into range. -/
def randString (len : Nat) (choice : Nat → Nat) : List Char :=
  (List.range len).map (fun i => stringBase.getD (choice i % stringBase.length) ' ')

/-- `Profiler.profile`: builds the random string once, then posts
`profileRuns` messages `"%d/%d %s" i profileRuns randString` in each of
`batches` batches.  The returned list is the sequence of posted payloads
(`postMessage` calls) in order; Go's `for i := 0; i < n` loop over an `int`
bound runs `n.toNat` times. -/
def Profiler.profile (p : Profiler) (choice : Nat → Nat) : List String :=
  let rs := randString p.length.toNat choice
  (List.range p.batches.toNat).flatMap (fun _ =>
    (List.range p.profileRuns.toNat).map (fun i =>
      toString i ++ "/" ++ toString p.profileRuns ++ " " ++ String.mk rs))

/-- The control signals a consumer can receive on its control channel
(`shared.ConsumerControlStop` and the remaining, non-stop signals of the
shared package, represented by `roll`; the alphabet is modelled from the
spec, the shared package being outside this snapshot). -/
inductive ConsumerControl where
  | stop
  | roll
  deriving DecidableEq, Repr

/-- The control loop of `Profiler.Consume`: reads signals from the control
channel one by one and returns exactly on `ConsumerControlStop`.  On a finite
trace of received signals the result is `some k` when the loop returns after
consuming `k + 1` signals (the `k`-th one being the stop), and `none` when
the loop is still blocked on the channel after the whole trace. -/
def controlLoop : List ConsumerControl → Option Nat
  | [] => none
  | c :: rest =>
    if c = ConsumerControl.stop then some 0
    else (controlLoop rest).map (· + 1)

/-- `Profiler.Consume`: spawns `profile` as a goroutine and then runs the
control loop on the caller's thread. -/
def Profiler.Consume (p : Profiler) (choice : Nat → Nat)
    (sigs : List ConsumerControl) : List String × Option Nat :=
  (p.profile choice, controlLoop sigs)

/-! ## The Syslogd consumer (src/consumer/syslogd.go) -/

/-- The three syslog standards of `format.Format` used by the consumer. -/
inductive SyslogFormat where
  | rfc3164
  | rfc5424
  | rfc6587
  deriving DecidableEq, Repr

/-- The `Syslogd` consumer's fields: the chosen format, the transport
protocol and address parsed from the `Address` option, and the `uint64`
sequence counter cell (a natural number kept below `2 ^ 64`). -/
structure Syslogd where
  format : SyslogFormat
  protocol : String
  address : String
  sequence : Nat
  deriving DecidableEq, Repr

/-- Whether an `Except` result is an error (a non-nil Go `error`). -/
def isErr : Except String Syslogd → Bool
  | .error _ => true
  | .ok _ => false

/-- The protocol of a successfully configured consumer. -/
def okProtocol : Except String Syslogd → Option String
  | .ok cons => some cons.protocol
  | .error _ => none

/-- `Syslogd.Configure`.  `baseErr` is the result of
`ConsumerBase.Configure` and `protocol`/`address` are the two halves of
`shared.ParseAddress(conf.GetString("Address", ...))` (base class and
address parser live outside this snapshot and enter as inputs); `fmt` is
`conf.GetString("Format", "RFC6587")`.  Returns the warnings printed via
`Log.Warning` together with the configured consumer or the error. -/
def Syslogd.Configure (baseErr : Option String) (address protocol fmt : String) :
    List String × Except String Syslogd :=
  match baseErr with
  | some e => ([], .error e)
  | none =>
    if protocol = "udp" ∨ protocol = "tcp" ∨ protocol = "unix" then
      if fmt = "RFC3164" then
        if protocol = "tcp" then
          (["Syslog: RFC3164 demands UDP"], .ok ⟨.rfc3164, "udp", address, 0⟩)
        else ([], .ok ⟨.rfc3164, protocol, address, 0⟩)
      else if fmt = "RFC5424" then
        if protocol = "tcp" then
          (["Syslog: RFC5424 demands UDP"], .ok ⟨.rfc5424, "udp", address, 0⟩)
        else ([], .ok ⟨.rfc5424, protocol, address, 0⟩)
      else if fmt = "RFC6587" then
        ([], .ok ⟨.rfc6587, protocol, address, 0⟩)
      else
        ([], .error ("Syslog: Format " ++ fmt ++ " is not supported"))
    else
      ([], .error ("Syslog: unknown protocol type " ++ protocol))

/-- A value of the `format.LogParts` map: the Go type assertion `.(string)`
only distinguishes strings from everything else. -/
inductive PartValue where
  | str (s : String)
  | other
  deriving DecidableEq, Repr

/-- `format.LogParts`, a string-keyed map of parsed syslog fields. -/
abbrev LogParts := List (String × PartValue)

/-- The field `Syslogd.Handle` reads for each format: `"content"` for
RFC3164, `"message"` for RFC5424 and RFC6587. -/
def expectedField : SyslogFormat → String
  | .rfc3164 => "content"
  | .rfc5424 => "message"
  | .rfc6587 => "message"

/-- Whether the looked-up part is a string (the `isString` flag). -/
def isStringPart : Option PartValue → Bool
  | some (.str _) => true
  | _ => false

/-- `Syslogd.Handle`: reads the expected field; when it is a string,
enqueues it with the current value of the `uint64` sequence cell and then
increments the cell (wrapping at `2 ^ 64`); otherwise logs an error and
returns with nothing enqueued and the state unchanged.  The second
component is the enqueued payload and sequence number, if any. -/
def Syslogd.Handle (cons : Syslogd) (parts : LogParts) :
    Syslogd × Option (String × Nat) :=
  match parts.lookup (expectedField cons.format) with
  | some (.str content) =>
      ({ cons with sequence := (cons.sequence + 1) % 2 ^ 64 },
       some (content, cons.sequence))
  | _ => (cons, none)

/-- Iterates `Syslogd.Handle` over a trace of incoming syslog messages,
collecting the sequence numbers passed to `Enqueue` in order. -/
def Syslogd.handleTrace (cons : Syslogd) : List LogParts → Syslogd × List Nat
  | [] => (cons, [])
  | p :: rest =>
    let r1 := cons.Handle p
    let r2 := Syslogd.handleTrace r1.1 rest
    (r2.1, (match r1.2 with | some (_, n) => [n] | none => []) ++ r2.2)

/-- The operations `Syslogd.Consume` performs on the go-syslog server. -/
inductive ServerOp where
  | setFormat (f : SyslogFormat)
  | setHandler
  | listenUnix (addr : String)
  | listenUDP (addr : String)
  | listenTCP (addr : String)
  | boot
  | kill
  deriving DecidableEq, Repr

/-- The observable state of the go-syslog server: whether its server loop
is running (socket open, handler being fed). -/
structure ServerState where
  running : Bool
  deriving DecidableEq, Repr

/-- Effect of one server operation on the server: `Boot` starts the server
loop, `Kill` releases the socket and stops it. -/
def ServerOp.apply : ServerOp → ServerState → ServerState
  | .boot, _ => ⟨true⟩
  | .kill, _ => ⟨false⟩
  | _, s => s

/-- The server only feeds `Syslogd.Handle` (and hence `Enqueue`) while its
loop is running; a killed server delivers nothing. -/
def serverDeliver (s : ServerState) (cons : Syslogd) (parts : LogParts) :
    Syslogd × Option (String × Nat) :=
  if s.running then cons.Handle parts else (cons, none)

/-- What `Syslogd.Consume` does: the server operations performed up front,
and the callbacks it registers for the fuse protocol. -/
structure ConsumeTrace where
  startup : List ServerOp
  fuseBurnedCallback : ServerOp
  fuseActiveCallback : ServerOp
  deriving DecidableEq, Repr

/-- `Syslogd.Consume`: builds a server, sets format and handler, listens
according to the configured protocol, boots the server, and registers
`server.Kill` as the fuse-burned callback and `server.Boot` as the
fuse-active callback before entering the control loop. -/
def Syslogd.Consume (cons : Syslogd) : ConsumeTrace :=
  { startup :=
      [ServerOp.setFormat cons.format, ServerOp.setHandler] ++
      (if cons.protocol = "unix" then [ServerOp.listenUnix cons.address]
       else if cons.protocol = "udp" then [ServerOp.listenUDP cons.address]
       else if cons.protocol = "tcp" then [ServerOp.listenTCP cons.address]
       else []) ++ [ServerOp.boot]
    fuseBurnedCallback := ServerOp.kill
    fuseActiveCallback := ServerOp.boot }

/-! ## Helper lemmas about `parsePlugin` and `Config.SetYAML` -/

/-- A settings map without an `"Enable"` key leaves the `Enable` field of the
accumulator untouched. -/
lemma parsePlugin_enable_of_no_enable :
    ∀ (settings : List (String × YamlValue)) (q p : PluginConfig),
      (∀ kv ∈ settings, kv.1 ≠ "Enable") → parsePlugin settings q = some p →
      p.Enable = q.Enable
  | [], q, p, _, h => by
      simp only [parsePlugin, Option.some.injEq] at h
      rw [← h]
  | (k, v) :: rest, q, p, hE, h => by
      have hk : ¬ k = "Enable" := hE (k, v) (by simp)
      rw [parsePlugin, if_neg hk] at h
      exact parsePlugin_enable_of_no_enable rest { q with Settings := q.Settings ++ [(k, v)] } p
        (fun kv hkv => hE kv (List.mem_cons_of_mem _ hkv)) h

/-- `parsePlugin` stores exactly the non-`Enable` keys, verbatim and in
iteration order, after the accumulated settings. -/
lemma parsePlugin_settings :
    ∀ (settings : List (String × YamlValue)) (q p : PluginConfig),
      parsePlugin settings q = some p →
      p.Settings = q.Settings ++ settings.filter (fun kv => ¬ kv.1 = "Enable")
  | [], q, p, h => by
      simp only [parsePlugin, Option.some.injEq] at h
      rw [← h]; simp
  | (k, v) :: rest, q, p, h => by
      by_cases hk : k = "Enable"
      · rw [parsePlugin, if_pos hk] at h
        rcases hb : v.asBool with _ | b <;> rw [hb] at h
        · cases h
        · have := parsePlugin_settings rest _ p h
          simpa [hk] using this
      · rw [parsePlugin, if_neg hk] at h
        have := parsePlugin_settings rest _ p h
        simp only [PluginConfig.mk.injEq] at this ⊢
        rw [this]
        simp [hk]

/-- A successful `SetYAML` run appends, for every class, exactly the parsed
plugins of that class's declarations, in declaration order. -/
lemma SetYAML_settings_eq :
    ∀ (decls : List (String × List (String × YamlValue))) (conf conf' : Config),
      conf.SetYAML decls = some conf' →
      ∀ cls, conf'.Settings cls = conf.Settings cls ++ parsedPlugins decls cls
  | [], conf, conf', h, cls => by
      simp only [Config.SetYAML, Option.some.injEq] at h
      rw [← h]; simp [parsedPlugins]
  | (c0, s0) :: rest, conf, conf', h, cls => by
      rcases hp : parsePlugin s0 ⟨false, []⟩ with _ | p <;>
        rw [Config.SetYAML, hp] at h
      · cases h
      · have ih := SetYAML_settings_eq rest _ conf' h cls
        by_cases hc : c0 = cls
        · subst hc
          simp only [if_pos rfl] at ih
          rw [ih]
          simp [parsedPlugins, hp, List.append_assoc]
        · have hc' : ¬ cls = c0 := fun hx => hc hx.symm
          simp only [if_neg hc'] at ih
          rw [ih]
          simp [parsedPlugins, hc]

/-- A successful `SetYAML` run parsed every declaration. -/
lemma SetYAML_parses :
    ∀ (decls : List (String × List (String × YamlValue))) (conf conf' : Config),
      conf.SetYAML decls = some conf' →
      ∀ d ∈ decls, (parsePlugin d.2 ⟨false, []⟩).isSome
  | [], _, _, _, d, hd => by cases hd
  | (c0, s0) :: rest, conf, conf', h, d, hd => by
      rcases hp : parsePlugin s0 ⟨false, []⟩ with _ | p <;>
        rw [Config.SetYAML, hp] at h
      · cases h
      · rcases List.mem_cons.mp hd with hd | hd
        · subst hd; simp [hp]
        · exact SetYAML_parses rest _ conf' h d hd

/-- `filterMap` over a list where the function always succeeds keeps the
length. -/
lemma length_filterMap_of_isSome {α β : Type} :
    ∀ (l : List α) (f : α → Option β), (∀ x ∈ l, (f x).isSome) →
      (l.filterMap f).length = l.length
  | [], _, _ => rfl
  | x :: rest, f, h => by
      rcases hx : f x with _ | y
      · exact absurd (h x (by simp)) (by simp [hx])
      · rw [List.filterMap_cons_some hx]
        simp only [List.length_cons]
        rw [length_filterMap_of_isSome rest f (fun z hz => h z (by simp [hz]))]

/-! ## Claim C1 -/

/-- C1 counterexample: a plugin declaration without an `Enable` key yields a
`PluginConfig` whose `Enable` field is `false`, not `true` as the claim
states — `Config.SetYAML` initializes the plugin config with
`PluginConfig{false, ...}` and only overwrites `Enable` when the key is
declared. -/
theorem SetYAML_enable_default_cex :
    (Config.SetYAML ⟨fun _ => []⟩
        [("consumer.Console", [("Channel", YamlValue.int 1024)])]).map
      (fun c => (c.Settings "consumer.Console").map PluginConfig.Enable) = some [false] := rfl

/-- C1 (amended): for every plugin declaration parsed by `Config.SetYAML`
that does not contain an `Enable` key, the resulting `PluginConfig` has
`Enable = false`, so the plugin is not instantiated unless explicitly
enabled. -/
theorem SetYAML_enable_default (conf conf' : Config) (cls : String)
    (settings : List (String × YamlValue))
    (hE : ∀ kv ∈ settings, kv.1 ≠ "Enable")
    (h : conf.SetYAML [(cls, settings)] = some conf') :
    (conf'.Settings cls).map PluginConfig.Enable
      = (conf.Settings cls).map PluginConfig.Enable ++ [false] := by
  rcases hp : parsePlugin settings ⟨false, []⟩ with _ | p <;>
    rw [Config.SetYAML, hp] at h
  · cases h
  · simp only [Config.SetYAML, Option.some.injEq] at h
    rw [← h]
    simp only [if_pos rfl, List.map_append]
    have := parsePlugin_enable_of_no_enable settings ⟨false, []⟩ p hE hp
    simp [this]

/-- C1 witness: the amended theorem applied to one concrete declaration. -/
theorem SetYAML_enable_default_witness :
    ((Config.mk (fun c => if c = "consumer.Console"
          then [⟨false, [("Channel", YamlValue.int 1024)]⟩] else [])).Settings
        "consumer.Console").map PluginConfig.Enable
      = (((Config.mk fun _ => []).Settings "consumer.Console").map PluginConfig.Enable)
        ++ [false] :=
  SetYAML_enable_default ⟨fun _ => []⟩ _ "consumer.Console"
    [("Channel", YamlValue.int 1024)] (by decide) rfl

/-! ## Claim C6 -/

/-- C6: `Config.SetYAML` turns a sequence of plugin declarations into one
`PluginConfig` per declaration, appended to `Settings[class]` in declaration
order (first conjunct: the per-class lists grow exactly by the parsed
plugins of that class, in order; second conjunct: one per declaration of the
class), and every settings key except `Enable` is stored verbatim in the
plugin's `Settings` map (third conjunct). -/
theorem SetYAML_structure (conf conf' : Config)
    (decls : List (String × List (String × YamlValue)))
    (h : conf.SetYAML decls = some conf') :
    (∀ cls, conf'.Settings cls = conf.Settings cls ++ parsedPlugins decls cls) ∧
    (∀ cls, (parsedPlugins decls cls).length
      = (decls.filter (fun d => d.1 = cls)).length) ∧
    (∀ d ∈ decls, ∀ p, parsePlugin d.2 ⟨false, []⟩ = some p →
      p.Settings = d.2.filter (fun kv => ¬ kv.1 = "Enable")) := by
  refine ⟨SetYAML_settings_eq decls conf conf' h, fun cls => ?_, fun d hd p hp => ?_⟩
  · exact length_filterMap_of_isSome _ _
      (fun d hd => SetYAML_parses decls conf conf' h d (List.mem_of_mem_filter hd))
  · simpa using parsePlugin_settings d.2 ⟨false, []⟩ p hp

/-- C6 witness: the structure theorem applied to one concrete declaration
list. -/
theorem SetYAML_structure_witness :
    (Config.mk (fun c => if c = "A"
        then [⟨true, [("k", YamlValue.str "v")]⟩] else [])).Settings "A"
      = (Config.mk fun _ => []).Settings "A"
        ++ parsedPlugins [("A", [("k", YamlValue.str "v"), ("Enable", YamlValue.bool true)])] "A" :=
  (SetYAML_structure ⟨fun _ => []⟩ _
    [("A", [("k", YamlValue.str "v"), ("Enable", YamlValue.bool true)])] rfl).1 "A"

/-! ## Claim C5 -/

/-- C5: the typed getters return the caller-supplied default when the key is
absent from the declared settings and the declared value when it is present;
in particular `Profiler.Create` obtains `Runs = 10000`, `Batches = 10` and
`Length = 256` when those keys are not declared. -/
theorem typed_getters (conf : PluginConfig) (key : String) (d : Int) (s : String) :
    (conf.Settings.lookup key = none →
      conf.GetInt key d = d ∧ conf.GetString key s = s) ∧
    (∀ n : Int, conf.Settings.lookup key = some (.int n) → conf.GetInt key d = n) ∧
    (∀ v : String, conf.Settings.lookup key = some (.str v) → conf.GetString key s = v) ∧
    (conf.Settings.lookup "Runs" = none → (Profiler.Create conf).profileRuns = 10000) ∧
    (conf.Settings.lookup "Batches" = none → (Profiler.Create conf).batches = 10) ∧
    (conf.Settings.lookup "Length" = none → (Profiler.Create conf).length = 256) := by
  refine ⟨fun h => ?_, fun n h => ?_, fun v h => ?_, fun h => ?_, fun h => ?_, fun h => ?_⟩ <;>
    simp [PluginConfig.GetInt, PluginConfig.GetString, Profiler.Create, h]

/-- C5 witness: the getter theorem applied to concrete configs, once with
the key absent and once with it declared. -/
theorem typed_getters_witness :
    (Profiler.Create ⟨false, []⟩).profileRuns = 10000 ∧
    PluginConfig.GetInt ⟨false, [("Runs", YamlValue.int 5)]⟩ "Runs" 0 = 5 :=
  ⟨(typed_getters ⟨false, []⟩ "Runs" 0 "").2.2.2.1 rfl,
   (typed_getters ⟨false, [("Runs", YamlValue.int 5)]⟩ "Runs" 0 "").2.1 5 rfl⟩

/-! ## Claim C3 -/

/-- C3: `Syslogd.Configure` returns a non-nil error if and only if the base
configuration fails, the configured protocol is outside udp/tcp/unix, or the
configured format is outside RFC3164/RFC5424/RFC6587.  `Configure` itself
performs no server operation: workers and the syslog server are only started
by `Syslogd.Consume`, so the error is reported before any worker starts. -/
theorem Configure_error_iff (baseErr : Option String) (addr protocol fmt : String) :
    isErr (Syslogd.Configure baseErr addr protocol fmt).2 = true ↔
      (baseErr ≠ none ∨ protocol ∉ ["udp", "tcp", "unix"]
        ∨ fmt ∉ ["RFC3164", "RFC5424", "RFC6587"]) := by
  rcases baseErr with _ | e
  · simp only [Syslogd.Configure]
    split_ifs with h1 h2 h3 h4 h5 h6 <;> simp_all [isErr]
  · simp [Syslogd.Configure, isErr]

/-! ## Claim C9 -/

/-- C9 counterexample: with format RFC3164 and protocol tcp, `Configure`
does coerce the protocol to udp and succeed, but it is not silent about it:
a warning is printed via `Log.Warning`. -/
theorem Configure_tcp_warns_cex :
    (Syslogd.Configure none "0.0.0.0:514" "tcp" "RFC3164").1
        = ["Syslog: RFC3164 demands UDP"] ∧
    (Syslogd.Configure none "0.0.0.0:514" "tcp" "RFC3164").2
        = Except.ok ⟨SyslogFormat.rfc3164, "udp", "0.0.0.0:514", 0⟩ ∧
    (Syslogd.Configure none "0.0.0.0:514" "tcp" "RFC3164").1 ≠ [] :=
  ⟨rfl, rfl, by decide⟩

/-- C9 (amended): given format RFC3164 or RFC5424 together with protocol
tcp, `Configure` coerces the protocol to udp and succeeds rather than
returning a configuration error, logging a warning (rather than staying
silent) while doing so. -/
theorem Configure_tcp_coerced (addr fmt : String)
    (h : fmt = "RFC3164" ∨ fmt = "RFC5424") :
    isErr (Syslogd.Configure none addr "tcp" fmt).2 = false ∧
    okProtocol (Syslogd.Configure none addr "tcp" fmt).2 = some "udp" ∧
    (Syslogd.Configure none addr "tcp" fmt).1
      = ["Syslog: " ++ fmt ++ " demands UDP"] := by
  rcases h with h | h <;> subst h <;> exact ⟨rfl, rfl, rfl⟩

/-- C9 witness: the amended theorem applied at RFC5424. -/
theorem Configure_tcp_coerced_witness :
    okProtocol (Syslogd.Configure none "0.0.0.0:514" "tcp" "RFC5424").2 = some "udp" :=
  (Configure_tcp_coerced "0.0.0.0:514" "RFC5424" (Or.inr rfl)).2.1

/-! ## Claim C4 -/

/-- C4: `Syslogd.Consume` registers `server.Kill` as the fuse-burned
callback and `server.Boot` as the fuse-active callback; burning stops the
server loop (after which the server delivers nothing to `Handle`, so nothing
is enqueued) and activating boots the server again. -/
theorem Consume_fuse_callbacks (cons : Syslogd) (s : ServerState) (c2 : Syslogd)
    (parts : LogParts) :
    (cons.Consume).fuseBurnedCallback = ServerOp.kill ∧
    (cons.Consume).fuseActiveCallback = ServerOp.boot ∧
    (ServerOp.apply (cons.Consume).fuseBurnedCallback s).running = false ∧
    serverDeliver (ServerOp.apply (cons.Consume).fuseBurnedCallback s) c2 parts
      = (c2, none) ∧
    (ServerOp.apply (cons.Consume).fuseActiveCallback s).running = true :=
  ⟨rfl, rfl, rfl, by simp [serverDeliver, Syslogd.Consume, ServerOp.apply], rfl⟩

/-! ## Claims C8 and C2: `Syslogd.Handle` -/

/-- When the expected field is present as a string, `Handle` enqueues it
with the current sequence number and bumps the wrapping counter. -/
lemma Handle_str {cons : Syslogd} {parts : LogParts} {s : String}
    (hl : parts.lookup (expectedField cons.format) = some (PartValue.str s)) :
    cons.Handle parts
      = ({ cons with sequence := (cons.sequence + 1) % 2 ^ 64 },
         some (s, cons.sequence)) := by
  simp [Syslogd.Handle, hl]

/-- When the expected field is absent or not a string, `Handle` returns
without enqueuing and without touching the state. -/
lemma Handle_not_str {cons : Syslogd} {parts : LogParts}
    (h : isStringPart (parts.lookup (expectedField cons.format)) = false) :
    cons.Handle parts = (cons, none) := by
  rw [Syslogd.Handle]
  rcases hl : parts.lookup (expectedField cons.format) with _ | pv
  · rfl
  · rcases pv with s | _
    · rw [hl] at h; simp [isStringPart] at h
    · rfl

/-- C8: for every call to `Syslogd.Handle` in which the expected field
(`content` for RFC3164, `message` for RFC5424/RFC6587) is absent or not a
string, no message is enqueued and the consumer's state — in particular the
sequence counter — is unchanged. -/
theorem Handle_no_string_unchanged (cons : Syslogd) (parts : LogParts)
    (h : isStringPart (parts.lookup (expectedField cons.format)) = false) :
    cons.Handle parts = (cons, none) :=
  Handle_not_str h

/-- C8 witness: an RFC3164 consumer receiving parts that carry `message`
but no `content` field enqueues nothing and keeps its state. -/
theorem Handle_no_string_unchanged_witness :
    Syslogd.Handle ⟨SyslogFormat.rfc3164, "udp", "0.0.0.0:514", 0⟩
        [("message", PartValue.str "x")]
      = (⟨SyslogFormat.rfc3164, "udp", "0.0.0.0:514", 0⟩, none) :=
  Handle_no_string_unchanged _ _ rfl

/-! ## Claim C7: the Profiler control loop -/

/-- The control loop stays blocked exactly as long as no stop signal has
arrived. -/
lemma controlLoop_none_iff :
    ∀ sigs : List ConsumerControl,
      controlLoop sigs = none ↔ ConsumerControl.stop ∉ sigs
  | [] => by simp [controlLoop]
  | c :: rest => by
      by_cases hc : c = ConsumerControl.stop
      · subst hc; simp [controlLoop]
      · simp [controlLoop, hc, Option.map_eq_none', controlLoop_none_iff rest,
          Ne.symm hc]

/-- When the control loop returns, it does so on the first stop signal of
the trace. -/
lemma controlLoop_some :
    ∀ (sigs : List ConsumerControl) (k : Nat), controlLoop sigs = some k →
      sigs[k]? = some ConsumerControl.stop ∧
      ∀ j, j < k → sigs[j]? ≠ some ConsumerControl.stop
  | [], k, h => by cases h
  | c :: rest, k, h => by
      by_cases hc : c = ConsumerControl.stop
      · subst hc
        rw [controlLoop, if_pos rfl] at h
        cases h
        exact ⟨by simp, fun j hj => absurd hj (Nat.not_lt_zero j)⟩
      · rw [controlLoop, if_neg hc] at h
        rcases hr : controlLoop rest with _ | k' <;> rw [hr] at h
        · cases h
        · simp only [Option.map_some', Option.some.injEq] at h
          subst h
          obtain ⟨h1, h2⟩ := controlLoop_some rest k' hr
          refine ⟨by simpa using h1, fun j hj => ?_⟩
          cases j with
          | zero => simpa using hc
          | succ j' => simpa using h2 j' (by omega)

/-- C7: `Profiler.Consume` returns exactly when a `ConsumerControlStop`
signal is received on its control channel: on a trace with no stop signal
the loop is still waiting (`none`), and when it returns with `some k` the
`k`-th signal is the first stop of the trace — every other signal is waited
through. -/
theorem Consume_control_stop (p : Profiler) (choice : Nat → Nat)
    (sigs : List ConsumerControl) :
    ((p.Consume choice sigs).2 = none ↔ ConsumerControl.stop ∉ sigs) ∧
    (∀ k, (p.Consume choice sigs).2 = some k →
      sigs[k]? = some ConsumerControl.stop ∧
      ∀ j, j < k → sigs[j]? ≠ some ConsumerControl.stop) :=
  ⟨controlLoop_none_iff sigs, fun k h => controlLoop_some sigs k h⟩

/-- C7 witness: on the trace [roll, stop] the loop returns at index 1,
which indeed carries the stop signal. -/
theorem Consume_control_stop_witness :
    ([ConsumerControl.roll, ConsumerControl.stop])[1]? = some ConsumerControl.stop :=
  ((Consume_control_stop ⟨0, 0, 0⟩ (fun _ => 0)
    [ConsumerControl.roll, ConsumerControl.stop]).2 1 rfl).1

/-- Counting matches in a constant list where the predicate holds. -/
lemma countP_replicate_true {α : Type} (pred : α → Bool) (a : α) (h : pred a = true) :
    ∀ n, (List.replicate n a).countP pred = n
  | 0 => rfl
  | n + 1 => by
      rw [List.replicate_succ, List.countP_cons, countP_replicate_true pred a h n, h]
      simp

/-- The sequence numbers passed to `Enqueue` over a trace of `Handle` calls:
one per successful call, starting at the current counter value and wrapping
at `2 ^ 64`. -/
lemma handleTrace_seq :
    ∀ (ps : List LogParts) (cons : Syslogd), cons.sequence < 2 ^ 64 →
      (cons.handleTrace ps).2
        = (List.range (ps.countP (fun q =>
            isStringPart (q.lookup (expectedField cons.format))))).map
          (fun i => (cons.sequence + i) % 2 ^ 64)
  | [], cons, h => by simp [Syslogd.handleTrace]
  | p :: rest, cons, h => by
      cases hs : isStringPart (p.lookup (expectedField cons.format)) with
      | false =>
          have hh := @Handle_not_str cons p hs
          simp only [Syslogd.handleTrace, hh, List.countP_cons, hs]
          rw [handleTrace_seq rest cons h]
          simp
      | true =>
          obtain ⟨s, hl⟩ : ∃ s, p.lookup (expectedField cons.format)
              = some (PartValue.str s) := by
            rcases hx : p.lookup (expectedField cons.format) with _ | pv
            · rw [hx] at hs; simp [isStringPart] at hs
            · rcases pv with s | _
              · exact ⟨s, rfl⟩
              · rw [hx] at hs; simp [isStringPart] at hs
          have hh := @Handle_str cons p s hl
          have hlt : ((cons.sequence + 1) % 2 ^ 64) < 2 ^ 64 :=
            Nat.mod_lt _ (by positivity)
          simp only [Syslogd.handleTrace, hh, List.countP_cons, hs]
          rw [handleTrace_seq rest _ hlt]
          simp only [if_true]
          rw [List.range_succ_eq_map, List.map_cons, List.map_map]
          simp only [List.singleton_append, Nat.add_zero, Nat.mod_eq_of_lt h]
          congr 1
          refine List.map_congr_left (fun i _ => ?_)
          simp only [Function.comp_apply, Nat.mod_add_mod]
          congr 1
          omega

/-! ## Claim C2 -/

/-- C2 counterexample: the sequence counter is a `uint64` and wraps, so on a
trace of `2 ^ 64 + 1` successful `Handle` calls the enqueued sequence
numbers are not strictly monotone: the call after the one numbered
`2 ^ 64 - 1` enqueues 0, which is not greater. -/
theorem Handle_sequence_wrap_cex :
    ((Syslogd.handleTrace ⟨SyslogFormat.rfc6587, "udp", "0.0.0.0:514", 0⟩
        (List.replicate (2 ^ 64 + 1) [("message", PartValue.str "x")])).2)[2 ^ 64 - 1]?
      = some (2 ^ 64 - 1) ∧
    ((Syslogd.handleTrace ⟨SyslogFormat.rfc6587, "udp", "0.0.0.0:514", 0⟩
        (List.replicate (2 ^ 64 + 1) [("message", PartValue.str "x")])).2)[2 ^ 64]?
      = some 0 ∧
    ¬ (2 ^ 64 - 1 < 0) := by
  have h1 := handleTrace_seq
    (List.replicate (2 ^ 64 + 1) [("message", PartValue.str "x")])
    ⟨SyslogFormat.rfc6587, "udp", "0.0.0.0:514", 0⟩ (by positivity)
  rw [countP_replicate_true _ _ rfl] at h1
  refine ⟨?_, ?_, Nat.not_lt_zero _⟩
  · rw [h1, List.getElem?_map, List.getElem?_range (by norm_num)]
    simp only [Option.map_some', Option.some.injEq, Nat.zero_add]
    exact Nat.mod_eq_of_lt (by norm_num)
  · rw [h1, List.getElem?_map, List.getElem?_range (by norm_num)]
    simp

/-- C2 (amended): for every sequence of calls to `Syslogd.Handle` on one
consumer whose counter starts at 0, as long as at most `2 ^ 64` of them
succeed, the `n`-th successful call enqueues sequence number `n` — the
numbers are `range`, hence strictly monotone, starting at 0, each one
greater than the previous.  (The counter is a `uint64`; beyond `2 ^ 64`
successful calls it wraps to 0, see the counterexample.) -/
theorem Handle_sequence_monotone (cons : Syslogd) (ps : List LogParts)
    (h0 : cons.sequence = 0)
    (hc : ps.countP (fun q => isStringPart (q.lookup (expectedField cons.format)))
      ≤ 2 ^ 64) :
    (cons.handleTrace ps).2
      = List.range (ps.countP (fun q =>
          isStringPart (q.lookup (expectedField cons.format)))) ∧
    List.Sorted (· < ·) (cons.handleTrace ps).2 := by
  have h1 := handleTrace_seq ps cons (by rw [h0]; positivity)
  rw [h0] at h1
  simp only [Nat.zero_add] at h1
  have h2 : (cons.handleTrace ps).2
      = List.range (ps.countP (fun q =>
          isStringPart (q.lookup (expectedField cons.format)))) := by
    rw [h1]
    exact (List.map_congr_left (fun i hi =>
      Nat.mod_eq_of_lt (lt_of_lt_of_le (List.mem_range.mp hi) hc))).trans
      (List.map_id _)
  exact ⟨h2, h2 ▸ List.sorted_lt_range _⟩

/-- C2 witness: a fresh RFC6587 consumer fed two parseable messages and one
bad one enqueues sequence numbers `range 2 = [0, 1]`. -/
theorem Handle_sequence_monotone_witness :
    (Syslogd.handleTrace ⟨SyslogFormat.rfc6587, "udp", "0.0.0.0:514", 0⟩
        [[("message", PartValue.str "a")], [("nope", PartValue.other)],
         [("message", PartValue.str "b")]]).2 = List.range 2 :=
  (Handle_sequence_monotone ⟨SyslogFormat.rfc6587, "udp", "0.0.0.0:514", 0⟩ _ rfl
    (by decide)).1

/-! ## Claim C10 -/

/-- C10: one run of `Profiler.profile` configured with `Runs = r`,
`Batches = b`, `Length = l` posts exactly `b * r` messages: `b` identical
batches, each consisting of the payloads `"i/r "` followed by the same fixed
random string, for `i` ranging over `0..r-1`; the random string has exactly
`l` runes. -/
theorem profile_messages (r b l : Nat) (choice : Nat → Nat) :
    Profiler.profile ⟨(r : Int), (b : Int), (l : Int)⟩ choice
      = List.flatten (List.replicate b ((List.range r).map (fun i =>
          toString i ++ "/" ++ toString ((r : Int)) ++ " "
            ++ String.mk (randString l choice)))) ∧
    (Profiler.profile ⟨(r : Int), (b : Int), (l : Int)⟩ choice).length = b * r ∧
    (randString l choice).length = l := by
  have hb : ((b : Int)).toNat = b := Int.toNat_natCast b
  have hr : ((r : Int)).toNat = r := Int.toNat_natCast r
  have hl : ((l : Int)).toNat = l := Int.toNat_natCast l
  have hmain : Profiler.profile ⟨(r : Int), (b : Int), (l : Int)⟩ choice
      = List.flatten (List.replicate b ((List.range r).map (fun i =>
          toString i ++ "/" ++ toString ((r : Int)) ++ " "
            ++ String.mk (randString l choice)))) := by
    simp only [Profiler.profile, hb, hr, hl, List.flatMap_def, List.map_const',
      List.length_range]
  refine ⟨hmain, ?_, by simp [randString]⟩
  rw [hmain, List.length_flatten]
  simp [List.sum_const_nat]

end Gollum
